import Mathlib

/-!
Verification of the Google Ads Multi-Client Dashboard backend.

Shallow embedding of the Express proxy server (`backend/server.js`), its
credential store (AES-256-CBC over a JSON-serialized record, hex-encoded
iv/ciphertext in a file), and the frontend mock-data generators
(`googleAdsApiClient.ts`).

The AES block permutation, the JSON serializer for the credentials record
and the operating system's random source are external library primitives
(Node `crypto`, `JSON`, `Math.random`); they enter the model as explicit
parameters, and theorems assume only their documented laws (block decrypt
inverts block encrypt; parse inverts stringify).  Everything the repository
itself computes — hex encoding, PKCS#7 padding, CBC chaining, the handlers'
control flow, the mock-data arithmetic — is embedded concretely.
-/

set_option autoImplicit false

namespace Dashboard

/-! Section: bytes, XOR, PKCS#7 padding, 16-byte blocks. -/

/-- Bytewise XOR of two byte lists (CBC chaining step). -/
def xorBytes (a b : List Nat) : List Nat := List.zipWith Nat.xor a b

/-- PKCS#7 padding to a multiple of 16 bytes, as applied by Node's
`cipher.final()` for `aes-256-cbc`: append `k` bytes of value `k` where
`k = 16 - len % 16` (a full block when the length is already a multiple). -/
def pkcs7pad (m : List Nat) : List Nat :=
  m ++ List.replicate (16 - m.length % 16) (16 - m.length % 16)

/-- PKCS#7 unpadding, as checked by Node's `decipher.final()`: the last byte
`k` must be in `1..16`, the last `k` bytes must all equal `k`; otherwise the
padding check fails. -/
def pkcs7unpad (m : List Nat) : Option (List Nat) :=
  match m.reverse with
  | [] => none
  | k :: _ =>
    if 1 ≤ k ∧ k ≤ 16 ∧ k ≤ m.length ∧ (m.drop (m.length - k)).all (fun b => b = k)
    then some (m.take (m.length - k))
    else none

/-- Split a byte list into consecutive 16-byte chunks (the block view a CBC
cipher takes of its input). -/
def toBlocks (l : List Nat) : List (List Nat) :=
  if l = [] then [] else l.take 16 :: toBlocks (l.drop 16)
termination_by l.length
decreasing_by
  simp only [List.length_drop]
  rename_i h
  have : 0 < l.length := List.length_pos.mpr h
  omega

/-- CBC encryption over a block permutation `E`: `c_i = E (p_i ⊕ c_{i-1})`,
seeded with the initialization vector. -/
def cbcEncBlocks (E : List Nat → List Nat) : List Nat → List (List Nat) → List (List Nat)
  | _, [] => []
  | prev, b :: bs =>
    let c := E (xorBytes b prev)
    c :: cbcEncBlocks E c bs

/-- CBC decryption over the inverse block permutation `D`:
`p_i = D c_i ⊕ c_{i-1}`. -/
def cbcDecBlocks (D : List Nat → List Nat) : List Nat → List (List Nat) → List (List Nat)
  | _, [] => []
  | prev, c :: cs => xorBytes (D c) prev :: cbcDecBlocks D c cs

/-! Section: hex encoding, as in Buffer.toString and Buffer.from with hex. -/

/-- Lower-case hex digit for a value below 16. -/
def hexDigit (n : Nat) : Char :=
  if n < 10 then Char.ofNat (48 + n) else Char.ofNat (87 + n)

/-- Value of a hex digit character, `none` on a non-hex character. -/
def hexVal (c : Char) : Option Nat :=
  if 48 ≤ c.toNat ∧ c.toNat ≤ 57 then some (c.toNat - 48)
  else if 97 ≤ c.toNat ∧ c.toNat ≤ 102 then some (c.toNat - 87)
  else if 65 ≤ c.toNat ∧ c.toNat ≤ 70 then some (c.toNat - 55)
  else none

/-- One byte as two lower-case hex characters. -/
def byteToHex (b : Nat) : List Char := [hexDigit (b / 16), hexDigit (b % 16)]

/-- A byte list as a hex string (character list), as `buf.toString('hex')`. -/
def bytesToHex (bs : List Nat) : List Char := bs.foldr (fun b acc => byteToHex b ++ acc) []

/-- Hex decoding with Node's `Buffer.from(str, 'hex')` semantics: decode
pairs of hex digits and stop (without error) at the first invalid pair or at
a trailing lone digit. -/
def hexToBytes : List Char → List Nat
  | c1 :: c2 :: rest =>
    match hexVal c1, hexVal c2 with
    | some h, some l => (16 * h + l) :: hexToBytes rest
    | _, _ => []
  | _ => []

/-! Section: the credentials record and the encrypted blob. -/

/-- The credentials record persisted by the store (`{clientId, clientSecret,
developerToken, refreshToken, managerId?}`); a missing or empty field is the
empty string, matching the JS truthiness tests the handlers perform. -/
structure Credentials where
  clientId : String
  clientSecret : String
  developerToken : String
  refreshToken : String
  managerId : String
deriving DecidableEq, Repr

/-- The on-disk shape written by `saveCredentials`: hex iv and hex
ciphertext (`{ iv: iv.toString('hex'), data: encrypted.toString('hex') }`). -/
structure EncryptedBlob where
  iv : String
  data : String
deriving DecidableEq, Repr

/-- A block permutation pair standing for the AES-256 primitive under the
derived key: Node's `crypto` is an external library, so it enters the model
as a parameter. -/
structure BlockCipher where
  enc : List Nat → List Nat
  dec : List Nat → List Nat

/-- A serializer pair standing for `JSON.stringify` / `JSON.parse` on the
credentials record (UTF-8 bytes). -/
structure Serializer where
  ser : Credentials → List Nat
  deser : List Nat → Option Credentials

/-- Implementation of `encryptData`: serialize, PKCS#7-pad, CBC-encrypt under a fresh 16-byte
iv (the iv is a parameter, standing for `crypto.randomBytes(16)`), and
hex-encode iv and ciphertext. -/
def encryptData (bc : BlockCipher) (js : Serializer) (ivBytes : List Nat)
    (r : Credentials) : EncryptedBlob :=
  let ct := (cbcEncBlocks bc.enc ivBytes (toBlocks (pkcs7pad (js.ser r)))).flatten
  { iv := String.mk (bytesToHex ivBytes), data := String.mk (bytesToHex ct) }

/-- The possible exceptions inside the `try` block of `decryptData`. -/
inductive DecError where
  | badIvLength    -- `createDecipheriv` rejects an iv that is not 16 bytes
  | badFinalBlock  -- `decipher.final()` without a complete final block
  | badPadding     -- `decipher.final()` padding check fails
  | parseError     -- `JSON.parse` throws on the decrypted plaintext
deriving DecidableEq, Repr

/-- The body of `decryptData` with every throwing step made explicit: decode
the hex iv, require 16 bytes, decode the hex ciphertext, require a nonempty
whole number of blocks, CBC-decrypt, strip PKCS#7 padding, parse. -/
def decryptBody (bc : BlockCipher) (js : Serializer) (blob : EncryptedBlob) :
    Except DecError Credentials :=
  let ivB := hexToBytes blob.iv.data
  if ivB.length ≠ 16 then .error .badIvLength
  else
    let ctB := hexToBytes blob.data.data
    if ctB = [] ∨ ctB.length % 16 ≠ 0 then .error .badFinalBlock
    else
      match pkcs7unpad (cbcDecBlocks bc.dec ivB (toBlocks ctB)).flatten with
      | none => .error .badPadding
      | some pt =>
        match js.deser pt with
        | none => .error .parseError
        | some r => .ok r

/-- Implementation of `decryptData`: the body wrapped in `try/catch`, every exception converted
to `null`. -/
def decryptData (bc : BlockCipher) (js : Serializer) (blob : EncryptedBlob) :
    Option Credentials :=
  (decryptBody bc js blob).toOption

/-- The credentials file: `none` when `credentials.json` is absent.  The file
holds `JSON.stringify` of the blob — a record of two plain hex strings whose
JSON round-trip is exact, so the file content is modelled as the blob
itself. -/
abbrev CredFile := Option EncryptedBlob

/-- Implementation of `saveCredentials`: encrypt and write the file, returning `true`; a write
failure (the `catch` branch) leaves the file as it was and returns `false`.
`writeOk` stands for the success of `fs.writeFileSync`. -/
def saveCredentials (bc : BlockCipher) (js : Serializer) (ivBytes : List Nat)
    (r : Credentials) (writeOk : Bool) (file : CredFile) : Bool × CredFile :=
  if writeOk then (true, some (encryptData bc js ivBytes r)) else (false, file)

/-- Implementation of `loadCredentials`: `null` when the file is absent, else `decryptData` of
its content (which is itself `null` on any failure). -/
def loadCredentials (bc : BlockCipher) (js : Serializer) (file : CredFile) :
    Option Credentials :=
  match file with
  | none => none
  | some blob => decryptData bc js blob

/-! Section: HTTP handlers of the proxy server. -/

/-- The observable part of a handler's JSON reply: HTTP status, the
`success` flag and the `message` field (empty when the reply has none). -/
structure HttpReply where
  status : Nat
  success : Bool
  message : String
deriving DecidableEq, Repr

/-- Outcome of an awaited upstream call (`customer.listAccessibleCustomers()`
or `customer.query(...)`): the library resolves with a value or rejects —
in particular it rejects when the refresh-token exchange it performs
internally fails.  The outcome is a parameter because the network is
external. -/
inductive UpstreamResult (α : Type) where
  | ok (val : α)
  | err (msg : String)
deriving DecidableEq, Repr

/-- JS truthiness check the handlers perform on the four required fields:
`!credentials.clientId || !credentials.clientSecret || !credentials.developerToken
|| !credentials.refreshToken` (a missing field and an empty string are both
falsy). -/
def requiredPresent (c : Credentials) : Bool :=
  c.clientId ≠ "" && c.clientSecret ≠ "" && c.developerToken ≠ "" && c.refreshToken ≠ ""

/-- Handler for `POST /api/credentials`: 400 when a required field is missing, 500 when
`saveCredentials` reports failure, 200 with `success:true` otherwise.
Returns the reply together with the resulting credentials file. -/
def postCredentialsHandler (bc : BlockCipher) (js : Serializer) (ivBytes : List Nat)
    (body : Credentials) (writeOk : Bool) (file : CredFile) : HttpReply × CredFile :=
  if ¬ requiredPresent body then
    (⟨400, false, "Missing required credentials"⟩, file)
  else
    let (saved, file2) := saveCredentials bc js ivBytes body writeOk file
    if ¬ saved then (⟨500, false, "Failed to save credentials"⟩, file2)
    else (⟨200, true, "API credentials saved successfully"⟩, file2)

/-- Handler for `POST /api/test-connection`: validates the request body (not the stored
record), calls `listAccessibleCustomers` with the submitted credentials, and
on success saves them — ignoring the save's own result — before replying
200.  An upstream rejection lands in the `catch` and replies 500. -/
def testConnectionHandler (bc : BlockCipher) (js : Serializer) (ivBytes : List Nat)
    (body : Credentials) (upstream : UpstreamResult (List String)) (writeOk : Bool)
    (file : CredFile) : HttpReply × CredFile :=
  if ¬ requiredPresent body then
    (⟨400, false, "Missing required credentials"⟩, file)
  else
    match upstream with
    | .err _ => (⟨500, false, "Failed to connect to Google Ads API"⟩, file)
    | .ok _ =>
      let (_, file2) := saveCredentials bc js ivBytes body writeOk file
      (⟨200, true, "Successfully connected to Google Ads API"⟩, file2)

/-- Handler for `GET /api/accounts`: 400 when `loadCredentials()` yields null, 500 when
the upstream call rejects, 200 otherwise. -/
def accountsHandler (stored : Option Credentials)
    (upstream : UpstreamResult (List String)) : HttpReply :=
  match stored with
  | none => ⟨400, false, "No API credentials found"⟩
  | some _ =>
    match upstream with
    | .err _ => ⟨500, false, "Failed to fetch Google Ads accounts"⟩
    | .ok _ => ⟨200, true, ""⟩

/-- Handler for `GET /api/metrics/:accountId`: 400 when `loadCredentials()` yields null,
500 when the upstream query rejects, 200 otherwise. -/
def metricsHandler (stored : Option Credentials)
    (upstream : UpstreamResult (List String)) : HttpReply :=
  match stored with
  | none => ⟨400, false, "No API credentials found"⟩
  | some _ =>
    match upstream with
    | .err _ => ⟨500, false, "Failed to fetch account metrics"⟩
    | .ok _ => ⟨200, true, ""⟩

/-! Section: endpoints present only as spec text and frontend callers. -/

/-- The response body of `GET /api/credentials`: an existence flag plus one
boolean presence flag per field — booleans only, no string field can carry a
credential value. -/
structure CredStatusReply where
  exists_ : Bool
  hasRefreshToken : Bool
  hasDeveloperToken : Bool
  hasClientId : Bool
  hasClientSecret : Bool
deriving DecidableEq, Repr

/-- Which of the four secret fields are nonempty in a record. -/
def presencePattern (c : Credentials) : Bool × Bool × Bool × Bool :=
  (c.refreshToken ≠ "", c.developerToken ≠ "", c.clientId ≠ "", c.clientSecret ≠ "")

/-- Modelled from the spec: the `GET /api/credentials` handler is not in the
repository sources (only its frontend callers and the spec describe it);
per the spec it "returns only existence + per-field boolean presence flags,
never raw values". -/
def getCredentialsHandler (stored : Option Credentials) : CredStatusReply :=
  match stored with
  | none => ⟨false, false, false, false, false⟩
  | some c =>
    ⟨true, c.refreshToken ≠ "", c.developerToken ≠ "", c.clientId ≠ "", c.clientSecret ≠ ""⟩

/-- Modelled from the spec: the credential store's `clear()` is not in the
repository sources; per the spec it "removes the file if present; idempotent
(absence is not an error)".  Returns the new file state and success. -/
def clearCredentials (_file : CredFile) : CredFile × Bool := (none, true)

/-- Modelled from the spec: the `DELETE /api/credentials` handler is not in
the repository sources; per the spec it "delegates to `clear`" and replies
`{success:true}` on success. -/
def deleteCredentialsHandler (file : CredFile) : HttpReply × CredFile :=
  let (file2, ok) := clearCredentials file
  if ok then (⟨200, true, ""⟩, file2) else (⟨500, false, ""⟩, file2)

/-! Section: encryption-key derivation. -/

/-- UTF-8 byte length of a character list (Node `Buffer.from(str)` uses
UTF-8). -/
def utf8Length (cs : List Char) : Nat := (cs.map Char.utf8Size).sum

/-- The key derivation on line 41 of `server.js`:
`(process.env.ENCRYPTION_KEY || default).slice(0, 32).padEnd(32, '0')`,
over the character list of the configured string (`none` = variable
unset). -/
def deriveEncryptionKey (env : Option String) : List Char :=
  let base := (env.getD ("secure-production-encryption-key-for-google-ads-api")).data
  let sliced := base.take 32
  sliced ++ List.replicate (32 - sliced.length) '0'

/-! Section: frontend mock-data generators of googleAdsApiClient.ts.

`Math.random()` is modelled as an ambient stream of rationals `Rng`; the
`i`-th call made by a generator reads index `i`.  Calendar dates are
modelled by their day index (an integer); `toISOString` formatting is a
library function that does not affect any of the equalities at stake. -/

/-- The stream of values successive `Math.random()` calls return. -/
abbrev Rng := Nat → ℚ

/-- The ambient date state a generator samples: the current day index
(`new Date()`) and the number of days in the current month. -/
structure Clock where
  today : Int
  daysInMonth : Nat
deriving DecidableEq, Repr

/-- The three time periods `'7days' | '30days' | 'month'`. -/
inductive TimePeriod where
  | d7
  | d30
  | month
deriving DecidableEq, Repr

/-- JS `Math.round`: round half toward positive infinity. -/
def jsRound (q : ℚ) : Int := Int.floor (q + 1 / 2)

/-- The `days` count the chart generators use for a period. -/
def periodDays (p : TimePeriod) (c : Clock) : Nat :=
  match p with
  | .d7 => 7
  | .d30 => 30
  | .month => c.daysInMonth

/-- One point of the conversion chart. -/
structure ConversionData where
  date : Int
  formConversions : Int
  callConversions : Int
deriving DecidableEq, Repr

/-- One point of the cost-per-lead chart. -/
structure CostPerLeadData where
  date : Int
  costPerLead : ℚ
  benchmark : ℚ
deriving DecidableEq, Repr

/-- One row of the recent-conversions table (`type` is `'form'` when
`isForm`). -/
structure ConversionDetail where
  id : String
  date : Int
  isForm : Bool
  campaign : String
  adGroup : String
  keyword : Option String
  cost : ℚ
deriving DecidableEq, Repr

/-- The five trend percentages of the metrics overview. -/
structure Trends where
  totalConversions : ℚ
  formConversions : ℚ
  callConversions : ℚ
  costPerLead : ℚ
  totalSpend : ℚ
deriving DecidableEq, Repr

/-- The metrics-overview payload. -/
structure GoogleAdsMetrics where
  totalConversions : Int
  formConversions : Int
  callConversions : Int
  costPerLead : ℚ
  totalSpend : ℚ
  trends : Trends
deriving DecidableEq, Repr

/-- Implementation of `getMockMetricsOverview`: period-dependent constants only; the body
makes no `Math.random()` call, so the stream parameter is unused. -/
def getMockMetricsOverview (p : TimePeriod) (_rng : Rng) : GoogleAdsMetrics :=
  let multiplier : ℚ := match p with
    | .d7 => 1 / 4
    | .d30 => 1
    | .month => 6 / 5
  { totalConversions := jsRound (120 * multiplier)
    formConversions := jsRound (85 * multiplier)
    callConversions := jsRound (35 * multiplier)
    costPerLead := 4575 / 100 * (match p with
      | .d30 => 1
      | .d7 => 11 / 10
      | .month => 9 / 10)
    totalSpend := 5490 * multiplier
    trends := ⟨125 / 10, 152 / 10, 58 / 10, -83 / 10, 37 / 10⟩ }

/-- Loop body of `getMockConversionChartData`: row `i` draws two random
values (form first, then call); `fuel` counts the remaining iterations of
the `for` loop, so the loop over `days` rows starts with `fuel = days`,
`i = 0`. -/
def mockConvAux (today : Int) (days : Nat) (rng : Rng) : Nat → Nat → List ConversionData
  | 0, _ => []
  | fuel + 1, i =>
    { date := today - (days - i - 1)
      formConversions := jsRound (rng (2 * i) * 5) + 1
      callConversions := jsRound (rng (2 * i + 1) * 3) }
      :: mockConvAux today days rng fuel (i + 1)

/-- Implementation of `getMockConversionChartData`. -/
def getMockConversionChartData (p : TimePeriod) (c : Clock) (rng : Rng) :
    List ConversionData :=
  mockConvAux c.today (periodDays p c) rng (periodDays p c) 0

/-- Loop body of `getMockCostPerLeadChartData`: row `i` draws one random
value; `fuel` counts the remaining iterations. -/
def mockCplAux (today : Int) (days : Nat) (rng : Rng) : Nat → Nat → List CostPerLeadData
  | 0, _ => []
  | fuel + 1, i =>
    { date := today - (days - i - 1)
      costPerLead := 35 + rng i * 20
      benchmark := 45 }
      :: mockCplAux today days rng fuel (i + 1)

/-- Implementation of `getMockCostPerLeadChartData`. -/
def getMockCostPerLeadChartData (p : TimePeriod) (c : Clock) (rng : Rng) :
    List CostPerLeadData :=
  mockCplAux c.today (periodDays p c) rng (periodDays p c) 0

/-- The four fixed campaign names. -/
def campaigns : List String :=
  ["Brand Awareness Campaign", "Lead Generation Campaign",
   "Remarketing Campaign", "Competitor Keywords Campaign"]

/-- The four fixed ad-group names. -/
def adGroups : List String :=
  ["Main Services", "Location Specific", "High Intent Keywords", "Product Specific"]

/-- The five keyword entries; the last is `null` and becomes `undefined` via
`|| undefined`. -/
def keywords : List (Option String) :=
  [some ("google ads services"), some ("digital marketing agency"),
   some ("ppc management"), some ("google ads consultant"), none]

/-- Loop body of `getMockRecentConversions`: row `i` draws six random values
in source order (date offset, type, campaign, ad group, keyword, cost).
Array indexing uses the JS contract that `Math.random()` lies in `[0, 1)`;
out-of-range indices fall back to a default, standing for `undefined`. -/
def mockRecentAux (today : Int) (rng : Rng) : Nat → Nat → List ConversionDetail
  | 0, _ => []
  | fuel + 1, i =>
    { id := "conv-" ++ toString i
      date := today - Int.floor (rng (6 * i) * 30)
      isForm := decide (rng (6 * i + 1) > 3 / 10)
      campaign := campaigns.getD (Int.floor (rng (6 * i + 2) * 4)).toNat ("")
      adGroup := adGroups.getD (Int.floor (rng (6 * i + 3) * 4)).toNat ("")
      keyword := (keywords.getD (Int.floor (rng (6 * i + 4) * 5)).toNat none)
      cost := 20 + rng (6 * i + 5) * 60 }
      :: mockRecentAux today rng fuel (i + 1)

/-- The number of recent-conversion rows generated for a period (10 for
`'7days'`, else 20). -/
def recentCount (p : TimePeriod) : Nat :=
  match p with
  | .d7 => 10
  | _ => 20

/-- Implementation of `getMockRecentConversions`: generate `recentCount p`
rows and stable-sort them by date, newest first. -/
def getMockRecentConversions (p : TimePeriod) (c : Clock) (rng : Rng) :
    List ConversionDetail :=
  (mockRecentAux c.today rng (recentCount p) 0).mergeSort (fun a b => b.date ≤ a.date)

/-! Section: concrete sample values used by witnesses and counterexamples. -/

/-- A fully populated sample credentials record. -/
def sampleCreds : Credentials :=
  ⟨"id-1", "secret-1", "dev-token-1", "refresh-token-1", ""⟩

/-- A second sample record with the same presence pattern but different
secret values. -/
def sampleCreds2 : Credentials :=
  ⟨"other-id", "other-secret", "other-dev", "other-refresh", ""⟩

/-- The identity block permutation, a legitimate instance of the cipher
interface for witnesses. -/
def idCipher : BlockCipher := ⟨fun b => b, fun b => b⟩

/-- A one-byte serializer whose parse returns the sample record, a
legitimate instance of the serializer laws at that record. -/
def constJson : Serializer := ⟨fun _ => [7], fun _ => some sampleCreds⟩

/-! Section: helper lemmas. -/

/-- Mapping a function that is constantly `1` sums to the length. -/
theorem sum_map_eq_length {α : Type} (l : List α) (f : α → Nat)
    (h : ∀ x ∈ l, f x = 1) : (l.map f).sum = l.length := by
  induction l with
  | nil => rfl
  | cons a t ih =>
    simp only [List.map_cons, List.sum_cons, List.length_cons,
      h a (List.mem_cons_self a t)]
    rw [ih (fun x hx => h x (List.mem_cons_of_mem a hx))]
    omega

/-- Hex digits decode back to their value. -/
theorem hexVal_hexDigit (n : Nat) (h : n < 16) : hexVal (hexDigit n) = some n := by
  interval_cases n <;> rfl

/-- Decoding a hex-encoded byte prepended to a tail recovers the byte. -/
theorem hexToBytes_byteToHex (b : Nat) (hb : b < 256) (cs : List Char) :
    hexToBytes (byteToHex b ++ cs) = b :: hexToBytes cs := by
  have h1 : b / 16 < 16 := Nat.div_lt_of_lt_mul (by omega)
  have h2 : b % 16 < 16 := Nat.mod_lt _ (by omega)
  simp only [byteToHex, List.cons_append, List.nil_append, hexToBytes,
    hexVal_hexDigit _ h1, hexVal_hexDigit _ h2, Nat.div_add_mod]
  rfl

/-- Hex decoding inverts hex encoding on byte lists. -/
theorem hexToBytes_bytesToHex (bs : List Nat) (h : ∀ b ∈ bs, b < 256) :
    hexToBytes (bytesToHex bs) = bs := by
  induction bs with
  | nil => rfl
  | cons b t ih =>
    have hb : b < 256 := h b (List.mem_cons_self b t)
    have : bytesToHex (b :: t) = byteToHex b ++ bytesToHex t := rfl
    rw [this, hexToBytes_byteToHex b hb, ih (fun x hx => h x (List.mem_cons_of_mem b hx))]

/-- PKCS#7 unpadding inverts PKCS#7 padding. -/
theorem pkcs7unpad_pkcs7pad (m : List Nat) : pkcs7unpad (pkcs7pad m) = some m := by
  have hmod : m.length % 16 < 16 := Nat.mod_lt _ (by omega)
  set k := 16 - m.length % 16 with hk
  have hk1 : 1 ≤ k := by omega
  have hk16 : k ≤ 16 := by omega
  have hrep : List.replicate k k = k :: List.replicate (k - 1) k := by
    nth_rewrite 1 [show k = (k - 1) + 1 by omega]
    rw [List.replicate_succ]
  have hlen : (pkcs7pad m).length = m.length + k := by
    simp [pkcs7pad, List.length_append, List.length_replicate]
  have hrev : (pkcs7pad m).reverse = k :: (List.replicate (k - 1) k ++ m.reverse) := by
    rw [pkcs7pad, ← hk, List.reverse_append, List.reverse_replicate, hrep,
      List.cons_append]
  have hdrop : (pkcs7pad m).drop ((pkcs7pad m).length - k) = List.replicate k k := by
    rw [hlen, Nat.add_sub_cancel, pkcs7pad, ← hk, List.drop_left]
  have htake : (pkcs7pad m).take ((pkcs7pad m).length - k) = m := by
    rw [hlen, Nat.add_sub_cancel, pkcs7pad, ← hk, List.take_left]
  rw [pkcs7unpad, hrev]
  simp only [htake, hdrop]
  rw [if_pos]
  refine ⟨hk1, hk16, by omega, ?_⟩
  simp only [List.all_eq_true, decide_eq_true_eq]
  exact fun x hx => List.eq_of_mem_replicate hx

/-- The length of a PKCS#7-padded list is a multiple of the block size. -/
theorem pkcs7pad_length_mod (m : List Nat) : (pkcs7pad m).length % 16 = 0 := by
  have : m.length % 16 < 16 := Nat.mod_lt _ (by omega)
  simp only [pkcs7pad, List.length_append, List.length_replicate]
  omega

/-- A PKCS#7-padded list is nonempty. -/
theorem pkcs7pad_ne_nil (m : List Nat) : pkcs7pad m ≠ [] := by
  have : m.length % 16 < 16 := Nat.mod_lt _ (by omega)
  intro h
  have := congrArg List.length h
  simp only [pkcs7pad, List.length_append, List.length_replicate, List.length_nil] at this
  omega

/-- Every byte of a PKCS#7-padded byte list is a byte. -/
theorem pkcs7pad_bytes (m : List Nat) (h : ∀ x ∈ m, x < 256) :
    ∀ x ∈ pkcs7pad m, x < 256 := by
  intro x hx
  rcases List.mem_append.mp hx with hx | hx
  · exact h x hx
  · have := List.eq_of_mem_replicate hx
    omega

/-- Concatenating the 16-byte chunks of a list gives back the list. -/
theorem flatten_toBlocks (l : List Nat) : (toBlocks l).flatten = l := by
  rw [toBlocks]
  split
  · simp_all
  · rw [List.flatten_cons, flatten_toBlocks (l.drop 16), List.take_append_drop]
termination_by l.length
decreasing_by
  simp only [List.length_drop]
  rename_i h
  have : 0 < l.length := List.length_pos.mpr h
  omega

/-- When the length is a multiple of 16, every chunk has length 16. -/
theorem toBlocks_length (l : List Nat) (hl : l.length % 16 = 0) :
    ∀ b ∈ toBlocks l, b.length = 16 := by
  intro b hb
  rw [toBlocks] at hb
  split at hb
  · simp_all
  · rename_i hne
    have hpos : 0 < l.length := List.length_pos.mpr hne
    have h16 : 16 ≤ l.length := by omega
    rcases List.mem_cons.mp hb with hb | hb
    · subst hb
      simp only [List.length_take]
      omega
    · exact toBlocks_length (l.drop 16) (by simp only [List.length_drop]; omega) b hb
termination_by l.length
decreasing_by
  simp only [List.length_drop]
  omega

/-- Every element of a chunk is an element of the chunked list. -/
theorem mem_of_mem_toBlocks (l : List Nat) :
    ∀ b ∈ toBlocks l, ∀ x ∈ b, x ∈ l := by
  intro b hb x hx
  rw [toBlocks] at hb
  split at hb
  · simp_all
  · rename_i hne
    have hpos : 0 < l.length := List.length_pos.mpr hne
    rcases List.mem_cons.mp hb with hb | hb
    · subst hb
      exact List.mem_of_mem_take hx
    · exact List.mem_of_mem_drop (mem_of_mem_toBlocks (l.drop 16) b hb x hx)
termination_by l.length
decreasing_by
  simp only [List.length_drop]
  omega

/-- Chunking the concatenation of 16-byte blocks gives back the blocks. -/
theorem toBlocks_flatten (bs : List (List Nat)) (h : ∀ b ∈ bs, b.length = 16) :
    toBlocks bs.flatten = bs := by
  induction bs with
  | nil => rw [List.flatten_nil, toBlocks]; simp
  | cons b t ih =>
    have hb : b.length = 16 := h b (List.mem_cons_self b t)
    have hne : b ++ t.flatten ≠ [] := by
      intro hc
      have := congrArg List.length hc
      simp only [List.length_append, List.length_nil] at this
      omega
    rw [List.flatten_cons, toBlocks, if_neg hne, List.take_left' hb, List.drop_left' hb,
      ih (fun x hx => h x (List.mem_cons_of_mem b hx))]

/-- A nonempty list has a nonempty chunk list. -/
theorem toBlocks_ne_nil (l : List Nat) (h : l ≠ []) : toBlocks l ≠ [] := by
  rw [toBlocks, if_neg h]
  exact List.cons_ne_nil _ _

/-- The flattened length of a list of 16-byte blocks. -/
theorem flatten_length_16 (bs : List (List Nat)) (h : ∀ b ∈ bs, b.length = 16) :
    bs.flatten.length = 16 * bs.length := by
  induction bs with
  | nil => rfl
  | cons b t ih =>
    rw [List.flatten_cons, List.length_append, List.length_cons,
      h b (List.mem_cons_self b t), ih (fun x hx => h x (List.mem_cons_of_mem b hx))]
    ring

/-- CBC encryption produces one ciphertext block per plaintext block. -/
theorem cbcEncBlocks_length (E : List Nat → List Nat) (bs : List (List Nat)) :
    ∀ prev, (cbcEncBlocks E prev bs).length = bs.length := by
  induction bs with
  | nil => intro prev; rfl
  | cons b t ih =>
    intro prev
    simp only [cbcEncBlocks, List.length_cons, ih]

/-- XOR-ing twice with the same equal-length list is the identity. -/
theorem xorBytes_xorBytes (a : List Nat) :
    ∀ b, a.length = b.length → xorBytes (xorBytes a b) b = a := by
  induction a with
  | nil => intro b _; rfl
  | cons x t ih =>
    intro b hb
    cases b with
    | nil => simp at hb
    | cons y u =>
      simp only [xorBytes, List.zipWith_cons_cons, List.cons.injEq]
      exact ⟨Nat.xor_cancel_right y x, ih u (by simpa using hb)⟩

/-- XOR of two byte lists is a byte list. -/
theorem xorBytes_lt (a : List Nat) :
    ∀ b, (∀ x ∈ a, x < 256) → (∀ x ∈ b, x < 256) → ∀ x ∈ xorBytes a b, x < 256 := by
  induction a with
  | nil => intro b _ _ x hx; simp [xorBytes] at hx
  | cons p t ih =>
    intro b ha hb x hx
    cases b with
    | nil => simp [xorBytes] at hx
    | cons q u =>
      simp only [xorBytes, List.zipWith_cons_cons, List.mem_cons] at hx
      rcases hx with hx | hx
      · subst hx
        have hp : p < 2 ^ 8 := ha p (List.mem_cons_self p t)
        have hq : q < 2 ^ 8 := hb q (List.mem_cons_self q u)
        exact Nat.xor_lt_two_pow hp hq
      · exact ih u (fun y hy => ha y (List.mem_cons_of_mem p hy))
          (fun y hy => hb y (List.mem_cons_of_mem q hy)) x hx

/-- The length of a bytewise XOR. -/
theorem xorBytes_length (a b : List Nat) :
    (xorBytes a b).length = min a.length b.length := List.length_zipWith _ a b

/-- CBC decryption under the inverse permutation recovers the plaintext
blocks, and all ciphertext blocks are 16-byte byte lists. -/
theorem cbc_roundtrip (bc : BlockCipher)
    (hlen : ∀ b, b.length = 16 → (bc.enc b).length = 16)
    (hbyte : ∀ b, b.length = 16 → (∀ x ∈ b, x < 256) → ∀ x ∈ bc.enc b, x < 256)
    (hinv : ∀ b, b.length = 16 → bc.dec (bc.enc b) = b) :
    ∀ (blocks : List (List Nat)) (prev : List Nat),
      prev.length = 16 → (∀ x ∈ prev, x < 256) →
      (∀ b ∈ blocks, b.length = 16 ∧ ∀ x ∈ b, x < 256) →
      (∀ cb ∈ cbcEncBlocks bc.enc prev blocks, cb.length = 16 ∧ ∀ x ∈ cb, x < 256) ∧
      cbcDecBlocks bc.dec prev (cbcEncBlocks bc.enc prev blocks) = blocks := by
  intro blocks
  induction blocks with
  | nil =>
    intro prev _ _ _
    exact ⟨by intro cb hcb; simp [cbcEncBlocks] at hcb, rfl⟩
  | cons b t ih =>
    intro prev hprevlen hprevb hblocks
    have hb : b.length = 16 ∧ ∀ x ∈ b, x < 256 := hblocks b (List.mem_cons_self b t)
    have hxlen : (xorBytes b prev).length = 16 := by
      rw [xorBytes_length, hb.1, hprevlen]
      simp
    have hxb : ∀ x ∈ xorBytes b prev, x < 256 := xorBytes_lt b prev hb.2 hprevb
    have hclen : (bc.enc (xorBytes b prev)).length = 16 := hlen _ hxlen
    have hcb : ∀ x ∈ bc.enc (xorBytes b prev), x < 256 := hbyte _ hxlen hxb
    have hrest := ih (bc.enc (xorBytes b prev)) hclen hcb
      (fun x hx => hblocks x (List.mem_cons_of_mem b hx))
    constructor
    · intro cb hcbm
      simp only [cbcEncBlocks, List.mem_cons] at hcbm
      rcases hcbm with hcbm | hcbm
      · subst hcbm; exact ⟨hclen, hcb⟩
      · exact hrest.1 cb hcbm
    · simp only [cbcEncBlocks, cbcDecBlocks, hrest.2, List.cons.injEq]
      refine ⟨?_, trivial⟩
      rw [hinv _ hxlen, xorBytes_xorBytes b prev (by rw [hb.1, hprevlen])]

/-! Section: claim theorems. -/

/-- C5: `POST /api/credentials` replies 400 when one of the four required
fields is missing or empty, 500 with `success:false` when the store's save
fails, and 200 with `success:true` when it succeeds — in which case and only
in which case the credentials file is rewritten. -/
theorem C5_post_credentials (bc : BlockCipher) (js : Serializer) (ivBytes : List Nat)
    (body : Credentials) (writeOk : Bool) (file : CredFile) :
    postCredentialsHandler bc js ivBytes body writeOk file =
      if requiredPresent body = false then
        (⟨400, false, "Missing required credentials"⟩, file)
      else if writeOk = false then
        (⟨500, false, "Failed to save credentials"⟩, file)
      else
        (⟨200, true, "API credentials saved successfully"⟩,
          some (encryptData bc js ivBytes body)) := by
  unfold postCredentialsHandler saveCredentials
  cases hreq : requiredPresent body <;> cases writeOk <;> simp

/-- C7 (spec-modelled): the store's `clear` removes the file and is
idempotent, clearing an absent file succeeds, `DELETE /api/credentials`
delegates to it replying `success:true`, and a subsequent
`GET /api/credentials` reports `exists:false`. -/
theorem C7_clear_idempotent_delete (bc : BlockCipher) (js : Serializer) (file : CredFile) :
    (clearCredentials (clearCredentials file).1).1 = (clearCredentials file).1 ∧
    (clearCredentials none).2 = true ∧
    (deleteCredentialsHandler file).1 = ⟨200, true, ""⟩ ∧
    getCredentialsHandler (loadCredentials bc js (deleteCredentialsHandler file).2) =
      ⟨false, false, false, false, false⟩ := by
  refine ⟨rfl, rfl, rfl, rfl⟩

/-- C6 (spec-modelled): `GET /api/credentials` returns only an existence
flag plus per-field presence flags; the reply depends only on which fields
are nonempty, never on the secret values themselves, and its type carries no
string field at all. -/
theorem C6_credentials_presence_only (c c2 : Credentials)
    (h : presencePattern c = presencePattern c2) :
    getCredentialsHandler (some c) = getCredentialsHandler (some c2) ∧
    (getCredentialsHandler (some c)).exists_ = true ∧
    getCredentialsHandler none = ⟨false, false, false, false, false⟩ := by
  refine ⟨?_, rfl, rfl⟩
  simp only [presencePattern, Prod.mk.injEq] at h
  simp only [getCredentialsHandler, CredStatusReply.mk.injEq]
  exact ⟨trivial, by simpa using h.1, by simpa using h.2.1,
    by simpa using h.2.2.1, by simpa using h.2.2.2⟩

/-- Witness for C6: two records sharing a presence pattern but with
different secret values produce the same reply. -/
theorem C6_credentials_presence_only_witness :
    getCredentialsHandler (some sampleCreds) = getCredentialsHandler (some sampleCreds2) ∧
    (getCredentialsHandler (some sampleCreds)).exists_ = true ∧
    getCredentialsHandler none = ⟨false, false, false, false, false⟩ :=
  C6_credentials_presence_only sampleCreds sampleCreds2 (by decide)

/-- C8 counterexample: with a 32-character configured value whose last
character is two UTF-8 bytes, the derived key is not 32 bytes, so the claim
that the key passed to the cipher is exactly 32 bytes for every
`ENCRYPTION_KEY` value is false. -/
theorem C8_counterexample :
    ¬ utf8Length (deriveEncryptionKey (some "aaaaaaaaaaaaaaaaaaaaaaaaaaaaaaaé")) = 32 := by
  decide

/-- C8 (amended): the configured string is truncated to its first 32
characters and right-padded with `'0'` to exactly 32 characters, for every
value including unset; the key is exactly 32 bytes whenever the configured
characters are single-byte (ASCII). -/
theorem C8_key_length (env : Option String) :
    (deriveEncryptionKey env).length = 32 ∧
    ((∀ ch ∈ (env.getD ("secure-production-encryption-key-for-google-ads-api")).data,
        ch.utf8Size = 1) →
      utf8Length (deriveEncryptionKey env) = 32) := by
  constructor
  · simp only [deriveEncryptionKey, List.length_append, List.length_take,
      List.length_replicate]
    omega
  · intro h
    have hall : ∀ ch ∈ deriveEncryptionKey env, ch.utf8Size = 1 := by
      intro ch hch
      simp only [deriveEncryptionKey, List.mem_append] at hch
      rcases hch with hch | hch
      · exact h ch (List.mem_of_mem_take hch)
      · have : ch = '0' := List.eq_of_mem_replicate hch
        subst this
        decide
    have hlen : (deriveEncryptionKey env).length = 32 := by
      simp only [deriveEncryptionKey, List.length_append, List.length_take,
        List.length_replicate]
      omega
    unfold utf8Length
    rw [sum_map_eq_length _ _ hall, hlen]

/-- Witness for C8: a short all-ASCII configured value yields a key of 32
characters and 32 bytes. -/
theorem C8_key_length_witness :
    (deriveEncryptionKey (some "shortkey")).length = 32 ∧
    utf8Length (deriveEncryptionKey (some "shortkey")) = 32 :=
  ⟨(C8_key_length (some "shortkey")).1,
    (C8_key_length (some "shortkey")).2 (by decide)⟩

/-- C1 counterexample: with credentials stored (resp. a fully populated
body) and an upstream call that rejects because the refresh-token exchange
fails, all three proxied endpoints reply 500 — none replies 401. -/
theorem C1_counterexample :
    ¬ ((accountsHandler (some sampleCreds) (.err ("invalid_grant"))).status = 401 ∨
       (metricsHandler (some sampleCreds) (.err ("invalid_grant"))).status = 401 ∨
       (testConnectionHandler idCipher constJson [] sampleCreds (.err ("invalid_grant"))
          true none).1.status = 401) := by
  decide

/-- C1 (amended): when the refresh-token exchange fails — surfacing as a
rejection of the awaited upstream call — the proxied endpoints reply HTTP
500 with `success:false`; the server has no 401 reply path. -/
theorem C1_refresh_failure_gives_500 (bc : BlockCipher) (js : Serializer)
    (ivBytes : List Nat) (stored body : Credentials) (m : String) (writeOk : Bool)
    (file : CredFile) (h : requiredPresent body = true) :
    accountsHandler (some stored) (.err m) =
      ⟨500, false, "Failed to fetch Google Ads accounts"⟩ ∧
    metricsHandler (some stored) (.err m) =
      ⟨500, false, "Failed to fetch account metrics"⟩ ∧
    (testConnectionHandler bc js ivBytes body (.err m) writeOk file).1 =
      ⟨500, false, "Failed to connect to Google Ads API"⟩ := by
  refine ⟨rfl, rfl, ?_⟩
  simp [testConnectionHandler, h]

/-- Witness for C1 (amended) at concrete inputs. -/
theorem C1_refresh_failure_gives_500_witness :
    accountsHandler (some sampleCreds) (.err ("invalid_grant")) =
      ⟨500, false, "Failed to fetch Google Ads accounts"⟩ ∧
    metricsHandler (some sampleCreds) (.err ("invalid_grant")) =
      ⟨500, false, "Failed to fetch account metrics"⟩ ∧
    (testConnectionHandler idCipher constJson [] sampleCreds (.err ("invalid_grant"))
      true none).1 = ⟨500, false, "Failed to connect to Google Ads API"⟩ :=
  C1_refresh_failure_gives_500 idCipher constJson [] sampleCreds sampleCreds
    ("invalid_grant") true none (by decide)

/-- C2 counterexample: a `POST /api/test-connection` request whose body
carries all four credentials, made while no credentials record is stored,
does not reply 400 — the handler never consults the store and proceeds to
the upstream call (here succeeding with status 200). -/
theorem C2_counterexample :
    ¬ (testConnectionHandler idCipher constJson [] sampleCreds
        (.ok ["customers/123"]) true none).1.status = 400 := by
  decide

/-- C2 (amended): with no stored record, `GET /api/accounts` and
`GET /api/metrics/:accountId` reply 400 without attempting the upstream
call (the reply is independent of any upstream outcome), while
`POST /api/test-connection` ignores the store and replies 400 exactly when
the request body is missing a required field, leaving the file untouched. -/
theorem C2_unconfigured_400 (bc : BlockCipher) (js : Serializer) (ivBytes : List Nat)
    (body : Credentials) (u u2 : UpstreamResult (List String)) (writeOk : Bool)
    (file : CredFile) (h : requiredPresent body = false) :
    accountsHandler (loadCredentials bc js none) u =
      ⟨400, false, "No API credentials found"⟩ ∧
    metricsHandler (loadCredentials bc js none) u =
      ⟨400, false, "No API credentials found"⟩ ∧
    accountsHandler (loadCredentials bc js none) u =
      accountsHandler (loadCredentials bc js none) u2 ∧
    (testConnectionHandler bc js ivBytes body u writeOk file).1 =
      ⟨400, false, "Missing required credentials"⟩ ∧
    (testConnectionHandler bc js ivBytes body u writeOk file).2 = file := by
  refine ⟨rfl, rfl, rfl, ?_, ?_⟩ <;> simp [testConnectionHandler, h]

/-- Witness for C2 (amended) at concrete inputs (empty request body). -/
theorem C2_unconfigured_400_witness :
    accountsHandler (loadCredentials idCipher constJson none) (.ok ["customers/123"]) =
      ⟨400, false, "No API credentials found"⟩ ∧
    metricsHandler (loadCredentials idCipher constJson none) (.ok ["customers/123"]) =
      ⟨400, false, "No API credentials found"⟩ ∧
    accountsHandler (loadCredentials idCipher constJson none) (.ok ["customers/123"]) =
      accountsHandler (loadCredentials idCipher constJson none) (.err ("x")) ∧
    (testConnectionHandler idCipher constJson [] ⟨"", "", "", "", ""⟩
      (.ok ["customers/123"]) true none).1 =
      ⟨400, false, "Missing required credentials"⟩ ∧
    (testConnectionHandler idCipher constJson [] ⟨"", "", "", "", ""⟩
      (.ok ["customers/123"]) true none).2 = none :=
  C2_unconfigured_400 idCipher constJson [] ⟨"", "", "", "", ""⟩
    (.ok ["customers/123"]) (.err ("x")) true none (by decide)

/-- C10: `POST /api/test-connection` uses only the submitted body — its
reply is independent of whatever record is stored — and on a successful
upstream connection it saves the submitted credentials, overwriting any
previously stored file. -/
theorem C10_test_connection_overwrites (bc : BlockCipher) (js : Serializer)
    (ivBytes : List Nat) (body : Credentials) (names : List String)
    (u : UpstreamResult (List String)) (writeOk : Bool) (file file2 : CredFile)
    (h : requiredPresent body = true) :
    (testConnectionHandler bc js ivBytes body u writeOk file).1 =
      (testConnectionHandler bc js ivBytes body u writeOk file2).1 ∧
    (testConnectionHandler bc js ivBytes body (.ok names) true file).2 =
      some (encryptData bc js ivBytes body) := by
  constructor
  · cases u <;> simp [testConnectionHandler, h]
  · simp [testConnectionHandler, h, saveCredentials]

/-- Witness for C10: a stored record is replaced by the submitted one. -/
theorem C10_test_connection_overwrites_witness :
    (testConnectionHandler idCipher constJson [] sampleCreds (.ok ["customers/123"])
        true (some ⟨"aa", "bb"⟩)).1 =
      (testConnectionHandler idCipher constJson [] sampleCreds (.ok ["customers/123"])
        true none).1 ∧
    (testConnectionHandler idCipher constJson [] sampleCreds (.ok ["customers/123"])
        true (some ⟨"aa", "bb"⟩)).2 =
      some (encryptData idCipher constJson [] sampleCreds) :=
  C10_test_connection_overwrites idCipher constJson [] sampleCreds ["customers/123"]
    (.ok ["customers/123"]) true (some ⟨"aa", "bb"⟩) none (by decide)

/-- C3: encrypt-then-decrypt is the identity on credentials records, and
saving then loading through the store returns the original record — under
the cipher laws (block decrypt inverts block encrypt on 16-byte byte
blocks) and the serializer law (parse inverts stringify). -/
theorem C3_save_load_roundtrip (bc : BlockCipher) (js : Serializer) (ivBytes : List Nat)
    (r : Credentials) (file : CredFile)
    (hiv : ivBytes.length = 16) (hivb : ∀ x ∈ ivBytes, x < 256)
    (hlen : ∀ b, b.length = 16 → (bc.enc b).length = 16)
    (hbyte : ∀ b, b.length = 16 → (∀ x ∈ b, x < 256) → ∀ x ∈ bc.enc b, x < 256)
    (hinv : ∀ b, b.length = 16 → bc.dec (bc.enc b) = b)
    (hserb : ∀ x ∈ js.ser r, x < 256)
    (hjs : js.deser (js.ser r) = some r) :
    decryptData bc js (encryptData bc js ivBytes r) = some r ∧
    loadCredentials bc js (saveCredentials bc js ivBytes r true file).2 = some r := by
  have hpadmod : (pkcs7pad (js.ser r)).length % 16 = 0 := pkcs7pad_length_mod _
  have hpadne : pkcs7pad (js.ser r) ≠ [] := pkcs7pad_ne_nil _
  have hpadbytes : ∀ x ∈ pkcs7pad (js.ser r), x < 256 := pkcs7pad_bytes _ hserb
  have hblocks16 : ∀ b ∈ toBlocks (pkcs7pad (js.ser r)), b.length = 16 :=
    toBlocks_length _ hpadmod
  have hblocksbytes : ∀ b ∈ toBlocks (pkcs7pad (js.ser r)), ∀ x ∈ b, x < 256 :=
    fun b hb x hx => hpadbytes x (mem_of_mem_toBlocks _ b hb x hx)
  have hcbc := cbc_roundtrip bc hlen hbyte hinv (toBlocks (pkcs7pad (js.ser r)))
    ivBytes hiv hivb (fun b hb => ⟨hblocks16 b hb, hblocksbytes b hb⟩)
  have hct16 : ∀ cb ∈ cbcEncBlocks bc.enc ivBytes (toBlocks (pkcs7pad (js.ser r))),
      cb.length = 16 := fun cb h => (hcbc.1 cb h).1
  have hctbytes : ∀ x ∈ (cbcEncBlocks bc.enc ivBytes
      (toBlocks (pkcs7pad (js.ser r)))).flatten, x < 256 := by
    intro x hx
    rcases List.mem_flatten.mp hx with ⟨l, hl, hxl⟩
    exact (hcbc.1 l hl).2 x hxl
  have hctlen : (cbcEncBlocks bc.enc ivBytes
      (toBlocks (pkcs7pad (js.ser r)))).flatten.length =
      16 * (cbcEncBlocks bc.enc ivBytes (toBlocks (pkcs7pad (js.ser r)))).length :=
    flatten_length_16 _ hct16
  have hblne : toBlocks (pkcs7pad (js.ser r)) ≠ [] := toBlocks_ne_nil _ hpadne
  have hcblen : (cbcEncBlocks bc.enc ivBytes (toBlocks (pkcs7pad (js.ser r)))).length =
      (toBlocks (pkcs7pad (js.ser r))).length := cbcEncBlocks_length bc.enc _ ivBytes
  have hctne : (cbcEncBlocks bc.enc ivBytes
      (toBlocks (pkcs7pad (js.ser r)))).flatten ≠ [] := by
    intro hc
    have h0 := congrArg List.length hc
    rw [hctlen] at h0
    simp only [List.length_nil] at h0
    have hz : (cbcEncBlocks bc.enc ivBytes (toBlocks (pkcs7pad (js.ser r)))).length = 0 := by
      omega
    rw [hcblen] at hz
    exact hblne (List.length_eq_zero.mp hz)
  have hivdec : hexToBytes (encryptData bc js ivBytes r).iv.data = ivBytes := by
    show hexToBytes (bytesToHex ivBytes) = ivBytes
    exact hexToBytes_bytesToHex ivBytes hivb
  have hctdec : hexToBytes (encryptData bc js ivBytes r).data.data =
      (cbcEncBlocks bc.enc ivBytes (toBlocks (pkcs7pad (js.ser r)))).flatten := by
    show hexToBytes (bytesToHex _) = _
    exact hexToBytes_bytesToHex _ hctbytes
  have hbody : decryptBody bc js (encryptData bc js ivBytes r) = .ok r := by
    rw [decryptBody, hivdec, hctdec]
    rw [if_neg (by simp [hiv])]
    rw [if_neg (by
      push_neg
      refine ⟨hctne, ?_⟩
      rw [hctlen]
      omega)]
    rw [toBlocks_flatten _ hct16, hcbc.2, flatten_toBlocks, pkcs7unpad_pkcs7pad]
    simp only [hjs]
  have hdec : decryptData bc js (encryptData bc js ivBytes r) = some r := by
    rw [decryptData, hbody]
    rfl
  exact ⟨hdec, hdec⟩

/-- Witness for C3 with the identity block permutation, a serializer
satisfying the parse-inverts-stringify law at the sample record, and a
zero iv. -/
theorem C3_save_load_roundtrip_witness :
    decryptData idCipher constJson
      (encryptData idCipher constJson (List.replicate 16 0) sampleCreds) =
      some sampleCreds ∧
    loadCredentials idCipher constJson
      (saveCredentials idCipher constJson (List.replicate 16 0) sampleCreds true none).2 =
      some sampleCreds :=
  C3_save_load_roundtrip idCipher constJson (List.replicate 16 0) sampleCreds none
    (by decide) (by decide) (fun b hb => hb) (fun b _ hx => hx) (fun b _ => rfl)
    (by decide) rfl

/-- C4: `decryptData` fails closed — every exception its body can raise
(malformed iv, incomplete final block, bad padding, unparseable plaintext)
is converted to `null` — and `loadCredentials` returns `null` when the file
is absent or when decryption fails. -/
theorem C4_decrypt_fails_closed (bc : BlockCipher) (js : Serializer)
    (blob : EncryptedBlob) (e : DecError) :
    (decryptBody bc js blob = .error e → decryptData bc js blob = none) ∧
    loadCredentials bc js none = none ∧
    (decryptBody bc js blob = .error e → loadCredentials bc js (some blob) = none) ∧
    ((hexToBytes blob.iv.data).length ≠ 16 →
      decryptBody bc js blob = .error .badIvLength) := by
  refine ⟨?_, rfl, ?_, ?_⟩
  · intro h
    rw [decryptData, h]
    rfl
  · intro h
    show decryptData bc js blob = none
    rw [decryptData, h]
    rfl
  · intro h
    rw [decryptBody, if_pos h]

/-- Witness for C4 at a blob whose iv field is too short to be a valid
initialization vector. -/
theorem C4_decrypt_fails_closed_witness :
    decryptData idCipher constJson ⟨"00", "00"⟩ = none ∧
    loadCredentials idCipher constJson none = none ∧
    loadCredentials idCipher constJson (some ⟨"00", "00"⟩) = none ∧
    decryptBody idCipher constJson ⟨"00", "00"⟩ = .error .badIvLength :=
  ⟨(C4_decrypt_fails_closed idCipher constJson ⟨"00", "00"⟩ .badIvLength).1 rfl,
   (C4_decrypt_fails_closed idCipher constJson ⟨"00", "00"⟩ .badIvLength).2.1,
   (C4_decrypt_fails_closed idCipher constJson ⟨"00", "00"⟩ .badIvLength).2.2.1 rfl,
   (C4_decrypt_fails_closed idCipher constJson ⟨"00", "00"⟩ .badIvLength).2.2.2 (by decide)⟩

/-- The conversion-chart loop reads only the first `2 * (i + fuel)` random
draws. -/
theorem mockConvAux_congr (today : Int) (days : Nat) (rng rng2 : Rng) :
    ∀ fuel i, (∀ k, k < 2 * (i + fuel) → rng k = rng2 k) →
      mockConvAux today days rng fuel i = mockConvAux today days rng2 fuel i := by
  intro fuel
  induction fuel with
  | zero => intro i _; rfl
  | succ n ih =>
    intro i h
    simp only [mockConvAux]
    rw [h (2 * i) (by omega), h (2 * i + 1) (by omega),
      ih (i + 1) (fun k hk => h k (by omega))]

/-- The cost-per-lead loop reads only the first `i + fuel` random draws. -/
theorem mockCplAux_congr (today : Int) (days : Nat) (rng rng2 : Rng) :
    ∀ fuel i, (∀ k, k < i + fuel → rng k = rng2 k) →
      mockCplAux today days rng fuel i = mockCplAux today days rng2 fuel i := by
  intro fuel
  induction fuel with
  | zero => intro i _; rfl
  | succ n ih =>
    intro i h
    simp only [mockCplAux]
    rw [h i (by omega), ih (i + 1) (fun k hk => h k (by omega))]

/-- The recent-conversions loop reads only the first `6 * (i + fuel)` random
draws. -/
theorem mockRecentAux_congr (today : Int) (rng rng2 : Rng) :
    ∀ fuel i, (∀ k, k < 6 * (i + fuel) → rng k = rng2 k) →
      mockRecentAux today rng fuel i = mockRecentAux today rng2 fuel i := by
  intro fuel
  induction fuel with
  | zero => intro i _; rfl
  | succ n ih =>
    intro i h
    simp only [mockRecentAux]
    rw [h (6 * i) (by omega), h (6 * i + 1) (by omega), h (6 * i + 2) (by omega),
      h (6 * i + 3) (by omega), h (6 * i + 4) (by omega), h (6 * i + 5) (by omega),
      ih (i + 1) (fun k hk => h k (by omega))]

/-- C9 counterexample: two runs of the conversion-chart mock generator with
the same period and the same date but different values from the random
source return different outputs, so the chart and conversions mocks are not
deterministic functions of period and date alone. -/
theorem C9_counterexample :
    getMockConversionChartData .d7 ⟨100, 30⟩ (fun _ => 0) ≠
      getMockConversionChartData .d7 ⟨100, 30⟩ (fun _ => 1 / 2) := by
  intro h
  have h2 := congrArg List.head? h
  have e1 : List.head? (getMockConversionChartData .d7 ⟨100, 30⟩ (fun _ => 0)) =
      some ⟨94, jsRound ((0 : ℚ) * 5) + 1, jsRound ((0 : ℚ) * 3)⟩ := rfl
  have e2 : List.head? (getMockConversionChartData .d7 ⟨100, 30⟩ (fun _ => 1 / 2)) =
      some ⟨94, jsRound ((1 / 2 : ℚ) * 5) + 1, jsRound ((1 / 2 : ℚ) * 3)⟩ := rfl
  rw [e1, e2] at h2
  have h3 : jsRound ((0 : ℚ) * 5) + 1 = jsRound ((1 / 2 : ℚ) * 5) + 1 := by
    injection h2 with h2a
    exact congrArg ConversionData.formConversions h2a
  have e3 : jsRound ((0 : ℚ) * 5) + 1 = 1 := by
    norm_num [jsRound]
  have e4 : jsRound ((1 / 2 : ℚ) * 5) + 1 = 4 := by
    norm_num [jsRound]
  rw [e3, e4] at h3
  exact absurd h3 (by decide)

/-- C9 (amended): the metrics-overview mock is deterministic — it consumes
no randomness — while the conversion-chart, cost-per-lead and
recent-conversions mocks are deterministic only relative to the random
source: two calls with the same period, the same date and the same values
on the finitely many draws they consume return equal outputs. -/
theorem C9_mock_determinism (p : TimePeriod) (c : Clock) (rng rng2 : Rng) :
    getMockMetricsOverview p rng = getMockMetricsOverview p rng2 ∧
    ((∀ k, k < 2 * periodDays p c → rng k = rng2 k) →
      getMockConversionChartData p c rng = getMockConversionChartData p c rng2) ∧
    ((∀ k, k < periodDays p c → rng k = rng2 k) →
      getMockCostPerLeadChartData p c rng = getMockCostPerLeadChartData p c rng2) ∧
    ((∀ k, k < 6 * recentCount p → rng k = rng2 k) →
      getMockRecentConversions p c rng = getMockRecentConversions p c rng2) := by
  refine ⟨rfl, ?_, ?_, ?_⟩
  · intro h
    exact mockConvAux_congr c.today (periodDays p c) rng rng2 (periodDays p c) 0
      (fun k hk => h k (by omega))
  · intro h
    exact mockCplAux_congr c.today (periodDays p c) rng rng2 (periodDays p c) 0
      (fun k hk => h k (by omega))
  · intro h
    unfold getMockRecentConversions
    rw [mockRecentAux_congr c.today rng rng2 (recentCount p) 0
      (fun k hk => h k (by omega))]

/-- Witness for C9 (amended): a stream and a second stream agreeing on the
first sixty draws but not beyond produce identical mock datasets. -/
theorem C9_mock_determinism_witness :
    getMockMetricsOverview .d7 (fun _ => 0) =
      getMockMetricsOverview .d7 (fun k => if k < 60 then 0 else 1) ∧
    getMockConversionChartData .d7 ⟨100, 30⟩ (fun _ => 0) =
      getMockConversionChartData .d7 ⟨100, 30⟩ (fun k => if k < 60 then 0 else 1) ∧
    getMockCostPerLeadChartData .d7 ⟨100, 30⟩ (fun _ => 0) =
      getMockCostPerLeadChartData .d7 ⟨100, 30⟩ (fun k => if k < 60 then 0 else 1) ∧
    getMockRecentConversions .d7 ⟨100, 30⟩ (fun _ => 0) =
      getMockRecentConversions .d7 ⟨100, 30⟩ (fun k => if k < 60 then 0 else 1) := by
  have hagree : ∀ b : Nat, ∀ k, k < b → b ≤ 60 →
      (fun _ => (0 : ℚ)) k = (fun k => if k < 60 then (0 : ℚ) else 1) k := by
    intro b k hk hb
    simp only
    rw [if_pos (by omega)]
  refine ⟨(C9_mock_determinism .d7 ⟨100, 30⟩ (fun _ => 0)
      (fun k => if k < 60 then 0 else 1)).1,
    (C9_mock_determinism .d7 ⟨100, 30⟩ (fun _ => 0)
      (fun k => if k < 60 then 0 else 1)).2.1 (fun k hk => hagree 14 k (by
        simpa [periodDays] using hk) (by omega)),
    (C9_mock_determinism .d7 ⟨100, 30⟩ (fun _ => 0)
      (fun k => if k < 60 then 0 else 1)).2.2.1 (fun k hk => hagree 7 k (by
        simpa [periodDays] using hk) (by omega)),
    (C9_mock_determinism .d7 ⟨100, 30⟩ (fun _ => 0)
      (fun k => if k < 60 then 0 else 1)).2.2.2 (fun k hk => hagree 60 k (by
        simpa [recentCount] using hk) (by omega))⟩

end Dashboard
